import Mathlib

/-!
Verification development for the content monitoring and aggregation plugin.

The Python sources are embedded shallowly:

* Python datetimes are modelled as rational epoch timestamps (seconds on a
  single UTC timeline); calendar formatting is derived from the timeline by
  the standard civil-from-days algorithm.
* Python floats are modelled as exact rationals.
* Python sets of strings are modelled as duplicate-free lists; the iteration
  order of a Python set is implementation defined, so only order-independent
  facts (membership, cardinality) are proved about them.
* Python dicts are modelled as association lists in key insertion order.
* File persistence is modelled by keeping the would-be file contents inside
  the state; load and save of the JSON state files are the identity on this
  in-memory model.
* Stateful methods become functions from state to (result, state).
-/

/-! ## String helpers (Python string primitives used by the sources) -/

/-- ASCII lower-casing of a single character, as Python str.lower acts on the
character sets appearing in this repository (ASCII letters and CJK text,
which lower-casing leaves unchanged). -/
def lowerChar (c : Char) : Char :=
  if 'A' ≤ c ∧ c ≤ 'Z' then Char.ofNat (c.toNat + 32) else c

/-- Python str.lower. -/
def pyLower (s : String) : String := ⟨s.data.map lowerChar⟩

/-- Count of non-overlapping occurrences of pat in the remaining text,
scanning left to right, with explicit fuel for termination. -/
def countFrom (pat : List Char) : List Char → Nat → Nat
  | _, 0 => 0
  | [], _ + 1 => 0
  | c :: rest, fuel + 1 =>
    if pat.isPrefixOf (c :: rest) then
      1 + countFrom pat (List.drop pat.length (c :: rest)) fuel
    else
      countFrom pat rest fuel

/-- Python str.count: non-overlapping substring occurrences; the empty
pattern counts len + 1 times, as in Python. -/
def countOccs (pat s : String) : Nat :=
  if pat.data = [] then s.data.length + 1
  else countFrom pat.data s.data (s.data.length + 1)

/-- Python substring membership test (pat in s). -/
def strContains (pat s : String) : Bool := 0 < countOccs pat s

/-- Python string slice s[:n]: the first n characters (code points). -/
def pySlice (s : String) (n : Nat) : String := ⟨s.data.take n⟩

/-- Python negative-index tail slice lst[-k:] on a list: the last k elements,
except that k = 0 yields the whole list (lst[-0:] is lst[0:] in Python). -/
def pySliceLast (l : List α) (k : Nat) : List α :=
  if k = 0 then l else l.drop (l.length - k)

/-! ## Decimal rendering of numbers (for strftime-style formatting) -/

/-- Decimal digits of a natural number, most significant first, with fuel. -/
def natToDigits : Nat → Nat → List Char
  | 0, _ => []
  | fuel + 1, n =>
    if n = 0 then [] else natToDigits fuel (n / 10) ++ [Char.ofNat (48 + n % 10)]

/-- Decimal string of a natural number. -/
def natToString (n : Nat) : String :=
  if n = 0 then "0" else ⟨natToDigits 30 n⟩

/-- Zero-pad a string on the left to the given width. -/
def padZeros (w : Nat) (s : String) : String :=
  ⟨List.replicate (w - s.data.length) '0' ++ s.data⟩

/-- Decimal string of an integer. -/
def intToString (i : Int) : String :=
  if i < 0 then "-" ++ natToString i.natAbs else natToString i.natAbs

/-! ## Civil calendar (for the strftime calls in the sources) -/

/-- Civil date (year, month, day) of a day count relative to 1970-01-01,
by the standard civil-from-days algorithm on the proleptic Gregorian
calendar. -/
def dayToYMD (day : Int) : Int × Nat × Nat :=
  let z := day + 719468
  let era := Int.ediv z 146097
  let doe := (Int.emod z 146097).toNat
  let yoe := (doe - doe / 1460 + doe / 36524 - doe / 146096) / 365
  let doy := doe - (365 * yoe + yoe / 4 - yoe / 100)
  let mp := (5 * doy + 2) / 153
  let d := doy - (153 * mp + 2) / 5 + 1
  let m := if mp < 10 then mp + 3 else mp - 9
  ((era * 400 + yoe : Int) + (if mp < 10 then 0 else 1), m, d)

/-- The day (since the epoch) on which a timestamp falls. -/
def dayOf (t : ℚ) : Int := ⌊t / 86400⌋

/-- Python strftime("%Y%m%d") of a timestamp. -/
def strftimeYMD (t : ℚ) : String :=
  let ymd := dayToYMD (dayOf t)
  padZeros 4 (intToString ymd.1) ++ padZeros 2 (natToString ymd.2.1)
    ++ padZeros 2 (natToString ymd.2.2)

/-- Python strftime("%Y年%m月%d日") of a timestamp (used in report titles). -/
def strftimeCn (t : ℚ) : String :=
  let ymd := dayToYMD (dayOf t)
  padZeros 4 (intToString ymd.1) ++ "年" ++ padZeros 2 (natToString ymd.2.1)
    ++ "月" ++ padZeros 2 (natToString ymd.2.2) ++ "日"

/-! ## models/report.py -/

/-- models/report.py ContentSource. -/
inductive ContentSource where
  | BILIBILI
  | ZHIHU
  | OTHER
deriving DecidableEq

/-- models/report.py ContentCategory. -/
inductive ContentCategory where
  | TECHNOLOGY
  | ENTERTAINMENT
  | EDUCATION
  | NEWS
  | LIFESTYLE
  | OTHER
deriving DecidableEq

/-- Values stored in the opaque source_data mapping of a ContentItem
(strings, optional strings, optional integers, string lists). -/
inductive SDVal where
  | s (v : String)
  | os (v : Option String)
  | oi (v : Option Int)
  | ls (v : List String)
deriving DecidableEq

/-- models/report.py ContentItem (a dataclass, hence value equality). -/
structure ContentItem where
  title : String
  url : String
  source : ContentSource
  published : Option ℚ := none
  author : Option String := none
  summary : Option String := none
  category : ContentCategory := ContentCategory.OTHER
  importance_score : ℚ := 0.5
  tags : List String := []
  source_data : List (String × SDVal) := []
deriving DecidableEq

/-- models/report.py CategorySection. -/
structure CategorySection where
  category : ContentCategory
  items : List ContentItem := []
  ai_summary : Option String := none
deriving DecidableEq

/-- models/report.py DailyReport. -/
structure DailyReport where
  report_date : ℚ
  title : String
  sections : List CategorySection := []
  executive_summary : Option String := none
  trending_topics : List String := []
  total_items : Nat := 0
  bilibili_items : Nat := 0
  zhihu_items : Nat := 0
  generation_time : Option ℚ := none
deriving DecidableEq

/-- DailyReport.add_item: append the item to the first section whose category
matches, creating a new section at the end of the list when none does. -/
def addToSections : List CategorySection → ContentItem → List CategorySection
  | [], item => [{ category := item.category, items := [item] }]
  | s :: rest, item =>
    if s.category = item.category then
      { s with items := s.items ++ [item] } :: rest
    else
      s :: addToSections rest item

/-- models/report.py DailyReport.add_item, including the counters. -/
def DailyReport.add_item (rep : DailyReport) (item : ContentItem) : DailyReport :=
  { rep with
    sections := addToSections rep.sections item
    total_items := rep.total_items + 1
    bilibili_items :=
      rep.bilibili_items + (if item.source = ContentSource.BILIBILI then 1 else 0)
    zhihu_items :=
      rep.zhihu_items + (if item.source = ContentSource.ZHIHU then 1 else 0) }

/-! ## models/bilibili.py (state tracking) -/

/-- models/bilibili.py UPMasterState. The Python field processed_videos is a
set of strings; it is modelled as a duplicate-free list standing for the
iteration order of the set. Since that order is implementation defined in
Python, only order-independent facts (membership and cardinality) are proved
about it. -/
structure UPMasterState where
  mid : String
  last_check_time : Int
  last_video_bvid : Option String := none
  last_video_aid : Option Int := none
  processed_videos : List String := []
deriving DecidableEq

/-- UPMasterState.mark_video_processed: set insertion (no eviction). -/
def UPMasterState.mark_video_processed (s : UPMasterState) (bvid : String) :
    UPMasterState :=
  if bvid ∈ s.processed_videos then s
  else { s with processed_videos := s.processed_videos ++ [bvid] }

/-- UPMasterState.is_video_processed: set membership. -/
def UPMasterState.is_video_processed (s : UPMasterState) (bvid : String) : Bool :=
  s.processed_videos.contains bvid

/-- models/bilibili.py MonitorState (the up_masters dict, as an association
list in key insertion order; the persisted fields not used by the claims are
omitted from the state the claims quantify over). -/
structure MonitorState where
  up_masters : List (String × UPMasterState) := []
  last_save_time : Int := 0
deriving DecidableEq

/-- Python dict lookup on an association list: first binding of the key. -/
def alLookup [DecidableEq κ] : List (κ × β) → κ → Option β
  | [], _ => none
  | (k0, v) :: rest, k => if k = k0 then some v else alLookup rest k

/-- MonitorState.get_or_create_up_state: dict lookup, inserting a fresh
UPMasterState (last_check_time 0) at the end on a miss. -/
def MonitorState.get_or_create_up_state (st : MonitorState) (mid : String) :
    UPMasterState × MonitorState :=
  match alLookup st.up_masters mid with
  | some up => (up, st)
  | none =>
    let up : UPMasterState := { mid := mid, last_check_time := 0 }
    (up, { st with up_masters := st.up_masters ++ [(mid, up)] })

/-- Overwrite the entry of a key in an association list (Python dict entry
mutation; every binding of the key is rewritten, which agrees with dict
update on the duplicate-free key lists produced here). -/
def alSet [DecidableEq κ] (l : List (κ × β)) (k : κ) (v : β) : List (κ × β) :=
  l.map fun p => if p.1 = k then (k, v) else p

/-! ## core/state.py StateManager

The StateManager loads the MonitorState from a JSON file, caches it, and
saves it back; corrupt or missing files load as the empty state. The file
layer is the identity on this in-memory model, so the manager is modelled by
its cached MonitorState and each method becomes a state transformer. -/

/-- StateManager.is_video_new: true iff the video is not yet processed (the
implicit load may create the per-mid entry, hence the returned state). -/
def StateManager.is_video_new (st : MonitorState) (mid bvid : String) :
    Bool × MonitorState :=
  let r := st.get_or_create_up_state mid
  (!(r.1.is_video_processed bvid), r.2)

/-- StateManager.update_up_state restricted to the processed_videos path used
by mark_videos_processed: refresh last_check_time, then mark each bvid. -/
def StateManager.mark_videos_processed (st : MonitorState) (mid : String)
    (bvids : List String) (now : Int) : MonitorState :=
  let r := st.get_or_create_up_state mid
  let up := { r.1 with last_check_time := now }
  let up := bvids.foldl UPMasterState.mark_video_processed up
  { r.2 with up_masters := alSet r.2.up_masters mid up }

/-- StateManager.cleanup_old_processed_videos: when the set holds more than
keep_count identifiers, shrink it to list(processed)[-keep_count:]. -/
def StateManager.cleanup_old_processed_videos (st : MonitorState) (mid : String)
    (keep_count : Nat) : MonitorState :=
  let r := st.get_or_create_up_state mid
  if keep_count < r.1.processed_videos.length then
    let up := { r.1 with processed_videos := pySliceLast r.1.processed_videos keep_count }
    { r.2 with up_masters := alSet r.2.up_masters mid up }
  else r.2

/-- The identifier set currently recorded for a source key. -/
def processedOf (st : MonitorState) (mid : String) : List String :=
  ((alLookup st.up_masters mid).map UPMasterState.processed_videos).getD []

/-! ## Association list lemmas -/

theorem alLookup_cons_self [DecidableEq κ] (k : κ) (v : β) (l : List (κ × β)) :
    alLookup ((k, v) :: l) k = some v := by
  simp [alLookup]

theorem alLookup_append_right [DecidableEq κ] (l₁ l₂ : List (κ × β)) (k : κ)
    (h : alLookup l₁ k = none) : alLookup (l₁ ++ l₂) k = alLookup l₂ k := by
  induction l₁ with
  | nil => simp
  | cons p rest ih =>
    rcases p with ⟨k0, v0⟩
    by_cases hk : k = k0
    · simp [alLookup, hk] at h
    · simp only [List.cons_append, alLookup, if_neg hk] at h ⊢
      exact ih h

theorem alSet_cons_self [DecidableEq κ] (k : κ) (v v1 : β) (rest : List (κ × β)) :
    alSet ((k, v1) :: rest) k v = (k, v) :: alSet rest k v := by
  simp [alSet]

theorem alSet_cons_ne [DecidableEq κ] {k k0 : κ} (h : k0 ≠ k) (v v1 : β)
    (rest : List (κ × β)) :
    alSet ((k0, v1) :: rest) k v = (k0, v1) :: alSet rest k v := by
  simp [alSet, h]

theorem alLookup_alSet_self [DecidableEq κ] (l : List (κ × β)) (k : κ) (v v0 : β)
    (h : alLookup l k = some v0) : alLookup (alSet l k v) k = some v := by
  induction l with
  | nil => simp [alLookup] at h
  | cons p rest ih =>
    rcases p with ⟨k0, v1⟩
    by_cases hk : k = k0
    · subst hk
      rw [alSet_cons_self, alLookup_cons_self]
    · rw [alSet_cons_ne (Ne.symm hk)]
      simp only [alLookup, if_neg hk] at h ⊢
      exact ih h

theorem get_or_create_lookup (st : MonitorState) (mid : String) :
    alLookup (st.get_or_create_up_state mid).2.up_masters mid
      = some (st.get_or_create_up_state mid).1 := by
  unfold MonitorState.get_or_create_up_state
  cases h : alLookup st.up_masters mid with
  | some up => simp [h]
  | none =>
    simp only [h]
    rw [alLookup_append_right _ _ _ h, alLookup_cons_self]

/-! ## Membership facts about marking -/

theorem mem_mark_self (up : UPMasterState) (bvid : String) :
    bvid ∈ (up.mark_video_processed bvid).processed_videos := by
  unfold UPMasterState.mark_video_processed
  by_cases h : bvid ∈ up.processed_videos
  · simp [h]
  · simp [h]

theorem mem_mark_mono (up : UPMasterState) (a bvid : String)
    (h : a ∈ up.processed_videos) :
    a ∈ (up.mark_video_processed bvid).processed_videos := by
  unfold UPMasterState.mark_video_processed
  by_cases hb : bvid ∈ up.processed_videos
  · simpa [hb]
  · simp [hb, h]

theorem mem_foldl_mark_mono (bvids : List String) (up : UPMasterState)
    (a : String) (h : a ∈ up.processed_videos) :
    a ∈ (bvids.foldl UPMasterState.mark_video_processed up).processed_videos := by
  induction bvids generalizing up with
  | nil => simpa
  | cons b rest ih => exact ih _ (mem_mark_mono up a b h)

theorem mem_foldl_mark (bvids : List String) (up : UPMasterState) (a : String)
    (h : a ∈ bvids) :
    a ∈ (bvids.foldl UPMasterState.mark_video_processed up).processed_videos := by
  induction bvids generalizing up with
  | nil => cases h
  | cons b rest ih =>
    rcases List.mem_cons.mp h with h1 | h1
    · subst h1
      exact mem_foldl_mark_mono rest _ a (mem_mark_self up a)
    · exact ih _ h1

/-! ## Claims C1 and C6: the identifier tracker -/

/-- The cap=3 example scenario of the spec: four identifiers marked seen in
order on an initially empty state. -/
def c1_state : MonitorState :=
  StateManager.mark_videos_processed
    (StateManager.mark_videos_processed
      (StateManager.mark_videos_processed
        (StateManager.mark_videos_processed ⟨[], 0⟩ "m" ["a"] 0)
        "m" ["b"] 0)
      "m" ["c"] 0)
    "m" ["d"] 0

/-- Claim C1, as stated, is false: marking identifiers seen performs no
eviction at all, so after mark_seen of a, b, c, d the tracker holds all four
identifiers (not three) and is_new of a is false (not true). -/
theorem c1_counterexample :
    (StateManager.is_video_new c1_state "m" "a").1 = false ∧
    (processedOf c1_state "m").length = 4 ∧ "a" ∈ processedOf c1_state "m" := by
  decide

/-- Claim C1 (amended): mark_video_processed only inserts; the identifier set
is bounded by the cap only through an explicit
cleanup_old_processed_videos(mid, keep_count) call, which for keep_count > 0
leaves at most keep_count identifiers (taken from the iteration order of the
set, not FIFO insertion order). -/
theorem cleanup_bounds_identifier_set (st : MonitorState) (mid : String)
    (keep_count : Nat) (hk : 0 < keep_count) :
    (processedOf (StateManager.cleanup_old_processed_videos st mid keep_count)
        mid).length ≤ keep_count := by
  unfold StateManager.cleanup_old_processed_videos
  have hl := get_or_create_lookup st mid
  by_cases hgt :
      keep_count < (st.get_or_create_up_state mid).1.processed_videos.length
  · rw [if_pos hgt]
    unfold processedOf
    rw [show ({ (st.get_or_create_up_state mid).2 with
          up_masters := alSet (st.get_or_create_up_state mid).2.up_masters mid
            { (st.get_or_create_up_state mid).1 with
              processed_videos :=
                pySliceLast (st.get_or_create_up_state mid).1.processed_videos
                  keep_count } } : MonitorState).up_masters
        = alSet (st.get_or_create_up_state mid).2.up_masters mid
            { (st.get_or_create_up_state mid).1 with
              processed_videos :=
                pySliceLast (st.get_or_create_up_state mid).1.processed_videos
                  keep_count } from rfl]
    rw [alLookup_alSet_self _ _ _ _ hl]
    simp only [Option.map, Option.getD]
    unfold pySliceLast
    rw [if_neg (Nat.pos_iff_ne_zero.mp hk)]
    simp only [List.length_drop]
    omega
  · rw [if_neg hgt]
    unfold processedOf
    rw [hl]
    simp only [Option.map, Option.getD]
    omega

/-- Witness for the amended claim C1 at the concrete cap=3 scenario. -/
theorem cleanup_bounds_identifier_set_witness :
    0 < 3 ∧
    (processedOf (StateManager.cleanup_old_processed_videos c1_state "m" 3)
        "m").length ≤ 3 :=
  ⟨by decide, cleanup_bounds_identifier_set c1_state "m" 3 (by decide)⟩

/-- Claim C6, as stated, is false: an empty-string identifier that was never
marked seen is reported as new (is_new returns true, not false). -/
theorem c6_counterexample :
    (StateManager.is_video_new ⟨[], 0⟩ "m" "").1 = true := by
  decide

/-- Claim C6 (amended): the tracker applies no special handling to
empty-string identifiers; is_new(mid, "") is true on a fresh state and false
once "" has been marked seen (all operations being total functions in this
model, no exception escapes them). -/
theorem empty_identifier_not_special :
    (∀ mid, (StateManager.is_video_new ⟨[], 0⟩ mid "").1 = true) ∧
    (∀ (st : MonitorState) (mid : String) (now : Int) (bvids : List String),
        "" ∈ bvids →
        (StateManager.is_video_new
            (StateManager.mark_videos_processed st mid bvids now) mid "").1
          = false) := by
  constructor
  · intro mid
    simp [StateManager.is_video_new, MonitorState.get_or_create_up_state,
      alLookup, UPMasterState.is_video_processed]
  · intro st mid now bvids hmem
    unfold StateManager.is_video_new StateManager.mark_videos_processed
    have hl := get_or_create_lookup st mid
    set r := st.get_or_create_up_state mid with hr
    set up2 := bvids.foldl UPMasterState.mark_video_processed
      { r.1 with last_check_time := now } with hup
    have hlook :
        alLookup (alSet r.2.up_masters mid up2) mid = some up2 :=
      alLookup_alSet_self _ _ _ _ hl
    have hmem2 : "" ∈ up2.processed_videos := mem_foldl_mark _ _ _ hmem
    unfold MonitorState.get_or_create_up_state
    simp only [hlook]
    simp [UPMasterState.is_video_processed, hmem2]

/-- Witness for the amended claim C6 at a concrete state. -/
theorem empty_identifier_not_special_witness :
    ("" ∈ [""]) ∧
    (StateManager.is_video_new
        (StateManager.mark_videos_processed ⟨[], 0⟩ "m" [""] 0) "m" "").1
      = false :=
  ⟨by decide, empty_identifier_not_special.2 ⟨[], 0⟩ "m" 0 [""] (by decide)⟩

/-! ## services/report_aggregator.py: categorizer and scorer -/

/-- ReportAggregator.category_keywords, in declaration order (the dict
iteration order of the source). -/
def category_keywords : List (ContentCategory × List String) :=
  [(ContentCategory.TECHNOLOGY,
    ["技术", "编程", "代码", "开发", "算法", "AI", "人工智能",
     "机器学习", "深度学习", "软件", "硬件", "科技"]),
   (ContentCategory.ENTERTAINMENT,
    ["娱乐", "游戏", "电影", "音乐", "动漫", "综艺", "明星",
     "影视", "剧集", "电视剧"]),
   (ContentCategory.EDUCATION,
    ["教育", "学习", "教程", "课程", "知识", "讲解", "科普",
     "入门", "进阶", "教学"]),
   (ContentCategory.NEWS,
    ["新闻", "时事", "热点", "资讯", "报道", "事件", "动态"]),
   (ContentCategory.LIFESTYLE,
    ["生活", "美食", "旅游", "健康", "运动", "时尚", "美妆",
     "摄影", "vlog", "日常"])]

/-- Python max(..., key=lambda x: x[1]): the first maximal element, ties
resolved in favour of the earlier element. -/
def pyMaxBySnd : List (α × Nat) → Option (α × Nat)
  | [] => none
  | x :: rest => some (rest.foldl (fun b y => if y.2 > b.2 then y else b) x)

/-- ReportAggregator._categorize_content: lower-case the title (and the
summary when truthy), count for each category how many of its keywords occur
as substrings of the text, and return the first-declared category with the
highest count, or OTHER when nothing matched. -/
def categorize_content (title : String) (summary : Option String) :
    ContentCategory :=
  let text :=
    match summary with
    | some s => if s = "" then pyLower title else pyLower title ++ " " ++ pyLower s
    | none => pyLower title
  let category_scores :=
    category_keywords.filterMap fun ck =>
      let score := (ck.2.filter fun kw => strContains kw text).length
      if 0 < score then some (ck.1, score) else none
  match pyMaxBySnd category_scores with
  | some best => best.1
  | none => ContentCategory.OTHER

/-- The categorization algorithm exactly as the claim states it (for
comparison with categorize_content): keyword matching is case-insensitive,
i.e. the keywords are lower-cased along with the text. -/
def specCategorize (title : String) (summary : Option String) :
    ContentCategory :=
  let text := pyLower (title ++ " " ++ summary.getD "")
  let category_scores :=
    category_keywords.filterMap fun ck =>
      let score := (ck.2.filter fun kw => strContains (pyLower kw) text).length
      if 0 < score then some (ck.1, score) else none
  match pyMaxBySnd category_scores with
  | some best => best.1
  | none => ContentCategory.OTHER

/-- ReportAggregator._calculate_importance. The Python code reads the clock
(datetime.now()), which is made explicit as the now parameter. -/
def calculate_importance (now : ℚ) (published : Option ℚ) (has_summary : Bool)
    (source : ContentSource) : ℚ :=
  let score : ℚ := 0.5
  let score :=
    match published with
    | some p =>
      let age_hours := (now - p) / 3600
      if age_hours < 24 then score + 0.3 * (1 - age_hours / 24)
      else if age_hours < 72 then score + 0.1
      else score
    | none => score
  let score := if has_summary then score + 0.1 else score
  let score := if source = ContentSource.BILIBILI then score + 0.05 else score
  min 1 score

/-! ## Claims C3, C4, C8: categorizer and scorer properties -/

/-- Claim C3, as stated, is false: the importance score is not a function of
(published, has_summary, source) alone, because the recency bonus reads the
clock; the same arguments give 0.8 when scored at the publication instant and
0.5 when scored 100 hours later. -/
theorem c3_counterexample :
    calculate_importance 0 (some 0) false ContentSource.ZHIHU
      ≠ calculate_importance 360000 (some 0) false ContentSource.ZHIHU := by
  simp +decide [calculate_importance, min_def]
  norm_num

/-- Claim C3 (amended): categorize is a pure function of (title, summary);
the score is a pure function of (clock time, published, has_summary, source)
and depends on the clock only through the age now - published: it is
invariant under absent timestamps and under shifting the clock and the
publication time together. -/
theorem categorize_and_score_determinism :
    (∀ title summary,
        categorize_content title summary = categorize_content title summary) ∧
    (∀ now1 now2 hs src,
        calculate_importance now1 none hs src
          = calculate_importance now2 none hs src) ∧
    (∀ now δ p hs src,
        calculate_importance (now + δ) (some (p + δ)) hs src
          = calculate_importance now (some p) hs src) := by
  refine ⟨fun _ _ => rfl, fun now1 now2 hs src => rfl, fun now δ p hs src => ?_⟩
  have h : now + δ - (p + δ) = now - p := by ring
  simp [calculate_importance, h]

/-- Claim C4: the code contradicts the claimed case-insensitive matching.
The text is lower-cased but the keyword list contains the upper-case keyword
AI, which therefore never matches; on the title "AI" the code returns OTHER
while the claimed algorithm returns TECHNOLOGY. -/
theorem c4_code_vs_claim :
    categorize_content "AI" none = ContentCategory.OTHER ∧
    specCategorize "AI" none = ContentCategory.TECHNOLOGY := by
  decide

/-- Claim C8: the importance score always lies in the closed interval from 0
to 1, for every clock time, publication time (or absence), summary flag and
source. -/
theorem importance_score_bounds (now : ℚ) (published : Option ℚ) (hs : Bool)
    (src : ContentSource) :
    0 ≤ calculate_importance now published hs src ∧
    calculate_importance now published hs src ≤ 1 := by
  unfold calculate_importance
  rcases published with _ | p
  · dsimp only
    split_ifs <;>
      exact ⟨le_min (by norm_num) (by norm_num), min_le_left _ _⟩
  · dsimp only
    split_ifs <;>
      exact ⟨le_min (by norm_num) (by linarith), min_le_left _ _⟩

/-! ## services/report_aggregator.py: the collectors

The aggregator reads its Bilibili inputs duck-typed: it accesses the
attributes published, description, bvid, view_count and like_count on videos
and up_name and mid on reports, although models/bilibili.py declares
publish_time, desc, play_count, up_master_name and up_master_mid. The
records below carry the attributes the collector actually reads (the only
call sites in src/main.py pass empty report lists, so the mismatch never
fires at runtime). -/

/-- A Bilibili video record as read (duck-typed) by the aggregator. -/
structure BiliVideo where
  title : String
  description : String
  bvid : String
  published : Option ℚ := none
  view_count : Option Int := none
  like_count : Option Int := none
deriving DecidableEq

/-- A Bilibili monitor report as read (duck-typed) by the aggregator. -/
structure BiliReport where
  up_name : String
  mid : String
  new_videos : List BiliVideo := []
deriving DecidableEq

/-- models/zhihu.py ZhihuFeedItem (the fields the aggregator reads). -/
structure ZhihuFeedItem where
  title : String
  link : String
  published : Option ℚ := none
  author : Option String := none
  summary : Option String := none
  guid : Option String := none
  bilibili_links : List String := []
deriving DecidableEq

/-- models/zhihu.py ZhihuMonitorReport (the fields the aggregator reads). -/
structure ZhihuReport where
  feed_url : String
  feed_name : Option String := none
  new_items : List ZhihuFeedItem := []
deriving DecidableEq

/-- ReportAggregator.collect_bilibili_content. -/
def collect_bilibili_content (now : ℚ) (reports : List BiliReport)
    (since : Option ℚ) : List ContentItem :=
  reports.flatMap fun report =>
    report.new_videos.filterMap fun video =>
      let skip :=
        match since, video.published with
        | some s, some p => decide (p < s)
        | _, _ => false
      if skip then none
      else
        some { title := video.title
               url := "https://www.bilibili.com/video/" ++ video.bvid
               source := ContentSource.BILIBILI
               published := video.published
               author := some report.up_name
               summary := if video.description = "" then none
                 else some (pySlice video.description 200)
               category := categorize_content video.title (some video.description)
               importance_score := calculate_importance now video.published
                 (!(video.description == "")) ContentSource.BILIBILI
               tags := []
               source_data :=
                 [("bvid", SDVal.s video.bvid), ("mid", SDVal.s report.mid),
                  ("up_name", SDVal.s report.up_name),
                  ("view_count", SDVal.oi video.view_count),
                  ("like_count", SDVal.oi video.like_count)] }

/-- ReportAggregator.collect_zhihu_content. -/
def collect_zhihu_content (now : ℚ) (reports : List ZhihuReport)
    (since : Option ℚ) (bilibili_links_only : Bool) : List ContentItem :=
  reports.flatMap fun report =>
    report.new_items.filterMap fun feed_item =>
      let skip :=
        match since, feed_item.published with
        | some s, some p => decide (p < s)
        | _, _ => false
      if skip then none
      else if bilibili_links_only && feed_item.bilibili_links.isEmpty then none
      else
        let importance := calculate_importance now feed_item.published
          (match feed_item.summary with | some s => !(s == "") | none => false)
          ContentSource.ZHIHU
        let importance :=
          if feed_item.bilibili_links.isEmpty then importance
          else min 1 (importance + 0.1)
        some { title := feed_item.title
               url := feed_item.link
               source := ContentSource.ZHIHU
               published := feed_item.published
               author := feed_item.author
               summary :=
                 match feed_item.summary with
                 | some s => if s = "" then none else some (pySlice s 200)
                 | none => none
               category := categorize_content feed_item.title feed_item.summary
               importance_score := importance
               tags := []
               source_data :=
                 [("feed_url", SDVal.s report.feed_url),
                  ("feed_name", SDVal.os report.feed_name),
                  ("bilibili_links", SDVal.ls feed_item.bilibili_links),
                  ("guid", SDVal.os feed_item.guid)] }

/-! ## Claim C2: summary truncation -/

/-- A 201-character description. -/
def c2_desc : String := ⟨List.replicate 201 'a'⟩

/-- One video with a 300-character description. -/
def c2_report : BiliReport :=
  { up_name := "u", mid := "1",
    new_videos := [{ title := "t", description := c2_desc, bvid := "bv" }] }

/-- Claim C2, as stated, is false: the collectors cap the summary at 200
characters, not 500; a 201-character description yields a 200-character
summary where the first 500 characters would be the whole description. -/
theorem c2_counterexample :
    (collect_bilibili_content 0 [c2_report] none).map ContentItem.summary
      = [some (pySlice c2_desc 200)] ∧
    pySlice c2_desc 200 ≠ pySlice c2_desc 500 := by
  refine ⟨rfl, fun h => ?_⟩
  have hlen : ((List.replicate 201 'a').take 200).length
      = ((List.replicate 201 'a').take 500).length :=
    congrArg (fun s : String => s.data.length) h
  rw [List.length_take, List.length_take, List.length_replicate] at hlen
  omega

/-- Claim C2 (amended): every item produced by the two collectors carries as
summary the first 200 characters of the source description or feed summary,
or none when that text is empty or absent. -/
theorem summary_truncated_at_200 :
    (∀ (now : ℚ) (reports : List BiliReport) (since : Option ℚ)
        (item : ContentItem),
        item ∈ collect_bilibili_content now reports since →
        ∃ r ∈ reports, ∃ v ∈ r.new_videos,
          item.summary =
            if v.description = "" then none
            else some (pySlice v.description 200)) ∧
    (∀ (now : ℚ) (reports : List ZhihuReport) (since : Option ℚ) (bl : Bool)
        (item : ContentItem),
        item ∈ collect_zhihu_content now reports since bl →
        ∃ r ∈ reports, ∃ f ∈ r.new_items,
          item.summary =
            match f.summary with
            | some s => if s = "" then none else some (pySlice s 200)
            | none => none) := by
  constructor
  · intro now reports since item h
    simp only [collect_bilibili_content, List.mem_flatMap, List.mem_filterMap]
      at h
    obtain ⟨r, hr, v, hv, heq⟩ := h
    refine ⟨r, hr, v, hv, ?_⟩
    split at heq
    · exact absurd heq (by simp)
    · cases heq
      rfl
  · intro now reports since bl item h
    simp only [collect_zhihu_content, List.mem_flatMap, List.mem_filterMap]
      at h
    obtain ⟨r, hr, f, hf, heq⟩ := h
    refine ⟨r, hr, f, hf, ?_⟩
    split at heq
    · exact absurd heq (by simp)
    · split at heq
      · exact absurd heq (by simp)
      · cases heq
        rfl

/-- One concrete video and the item the Bilibili collector makes of it. -/
def c2w_report : BiliReport :=
  { up_name := "u", mid := "1",
    new_videos := [{ title := "t", description := "d", bvid := "bv" }] }

/-- The item produced for the single video of c2w_report. -/
def c2w_item : ContentItem :=
  { title := "t"
    url := "https://www.bilibili.com/video/" ++ "bv"
    source := ContentSource.BILIBILI
    published := none
    author := some "u"
    summary := if ("d" : String) = "" then none else some (pySlice "d" 200)
    category := categorize_content "t" (some "d")
    importance_score :=
      calculate_importance 0 none (!(("d" : String) == "")) ContentSource.BILIBILI
    tags := []
    source_data :=
      [("bvid", SDVal.s "bv"), ("mid", SDVal.s "1"), ("up_name", SDVal.s "u"),
       ("view_count", SDVal.oi none), ("like_count", SDVal.oi none)] }

/-- Witness for the amended claim C2 on a concrete collector run. -/
theorem summary_truncated_at_200_witness :
    c2w_item.summary = some (pySlice "d" 200) := by
  obtain ⟨r, hr, v, hv, heq⟩ :=
    summary_truncated_at_200.1 0 [c2w_report] none c2w_item (List.Mem.head _)
  rw [List.mem_singleton] at hr
  subst hr
  rw [show c2w_report.new_videos
      = [{ title := "t", description := "d", bvid := "bv" }] from rfl,
    List.mem_singleton] at hv
  subst hv
  simpa using heq

/-! ## services/report_aggregator.py: aggregate_all -/

/-- One iteration of the grouping loop of aggregate_all: create the category
bucket on first sight, then append the item when the bucket is still below
max_items_per_category. -/
def bucketStep (cap : Nat) (acc : List (ContentCategory × List ContentItem))
    (item : ContentItem) : List (ContentCategory × List ContentItem) :=
  let acc :=
    match alLookup acc item.category with
    | none => acc ++ [(item.category, [])]
    | some _ => acc
  match alLookup acc item.category with
  | some bucket =>
    if bucket.length < cap then alSet acc item.category (bucket ++ [item])
    else acc
  | none => acc

/-- The category_items dict of aggregate_all after the grouping loop. -/
def buildBuckets (cap : Nat) (items : List ContentItem) :
    List (ContentCategory × List ContentItem) :=
  items.foldl (bucketStep cap) []

/-- ReportAggregator.aggregate_all. Python list.sort(key=..., reverse=True)
is the stable descending sort, which insertion sort with the relation
(score of b at most score of a) computes. The report_date and the
generation_time both read the clock and are modelled as the same now. -/
def aggregate_all (now : ℚ) (bilibili_reports : Option (List BiliReport))
    (zhihu_reports : Option (List ZhihuReport)) (since : Option ℚ)
    (min_importance : ℚ) (max_items_per_category : Nat) : DailyReport :=
  let report : DailyReport :=
    { report_date := now
      title := "每日内容汇总 - " ++ strftimeCn now
      generation_time := some now }
  let all_items : List ContentItem :=
    (match bilibili_reports with
     | some rs => collect_bilibili_content now rs since
     | none => []) ++
    (match zhihu_reports with
     | some rs => collect_zhihu_content now rs since false
     | none => [])
  let all_items := all_items.filter fun item =>
    min_importance ≤ item.importance_score
  let all_items := List.insertionSort
    (fun a b : ContentItem => b.importance_score ≤ a.importance_score) all_items
  let category_items := buildBuckets max_items_per_category all_items
  let kept := all_items.filter fun item =>
    ((alLookup category_items item.category).getD []).contains item
  kept.foldl DailyReport.add_item report

/-! ## Lemmas about the grouping dict of aggregate_all -/

theorem alLookup_append_left [DecidableEq κ] (l₁ l₂ : List (κ × β)) (k : κ)
    (v : β) (h : alLookup l₁ k = some v) :
    alLookup (l₁ ++ l₂) k = some v := by
  induction l₁ with
  | nil => simp [alLookup] at h
  | cons p rest ih =>
    rcases p with ⟨k0, v0⟩
    by_cases hk : k = k0
    · simp only [alLookup, if_pos hk] at h
      simp [alLookup, hk, h]
    · simp only [alLookup, if_neg hk] at h
      simp only [List.cons_append, alLookup, if_neg hk]
      exact ih h

theorem alLookup_single_ne [DecidableEq κ] {k k0 : κ} (v : β) (h : k ≠ k0) :
    alLookup [(k0, v)] k = none := by
  simp [alLookup, h]

theorem alLookup_alSet_ne [DecidableEq κ] (l : List (κ × β)) {k k2 : κ}
    (v : β) (h : k2 ≠ k) : alLookup (alSet l k v) k2 = alLookup l k2 := by
  induction l with
  | nil => simp [alSet]
  | cons p rest ih =>
    rcases p with ⟨k0, v0⟩
    by_cases hk : k0 = k
    · subst hk
      rw [alSet_cons_self]
      simp only [alLookup, if_neg h, if_neg h]
      exact ih
    · rw [alSet_cons_ne hk]
      by_cases hk2 : k2 = k0
      · simp [alLookup, hk2]
      · simp only [alLookup, if_neg hk2]
        exact ih

theorem alLookup_bucketStep_ne (cap : Nat)
    (acc : List (ContentCategory × List ContentItem)) (item : ContentItem)
    {c : ContentCategory} (hc : c ≠ item.category) :
    alLookup (bucketStep cap acc item) c = alLookup acc c := by
  unfold bucketStep
  cases h1 : alLookup acc item.category with
  | none =>
    simp only [h1]
    have hkeep : alLookup (acc ++ [(item.category, [])]) c = alLookup acc c := by
      cases h2 : alLookup acc c with
      | some v => rw [alLookup_append_left _ _ _ _ h2]
      | none => rw [alLookup_append_right _ _ _ h2, alLookup_single_ne _ hc]
    cases h3 : alLookup (acc ++ [(item.category, [])]) item.category with
    | none => simpa using hkeep
    | some bucket =>
      simp only [h3]
      by_cases h4 : bucket.length < cap
      · rw [if_pos h4, alLookup_alSet_ne _ _ hc]
        exact hkeep
      · rw [if_neg h4]
        exact hkeep
  | some bucket0 =>
    simp only [h1]
    by_cases h4 : bucket0.length < cap
    · rw [if_pos h4, alLookup_alSet_ne _ _ hc]
    · rw [if_neg h4]

theorem alLookup_bucketStep_self (cap : Nat)
    (acc : List (ContentCategory × List ContentItem)) (item : ContentItem) :
    alLookup (bucketStep cap acc item) item.category =
      match alLookup acc item.category with
      | none => if 0 < cap then some [item] else some []
      | some b => if b.length < cap then some (b ++ [item]) else some b := by
  unfold bucketStep
  cases h1 : alLookup acc item.category with
  | none =>
    simp only [h1]
    have hcreated :
        alLookup (acc ++ [(item.category, [])]) item.category = some [] := by
      rw [alLookup_append_right _ _ _ h1, alLookup_cons_self]
    simp only [hcreated, List.length_nil]
    by_cases h4 : 0 < cap
    · rw [if_pos h4, if_pos h4, alLookup_alSet_self _ _ _ _ hcreated]
      simp
    · rw [if_neg h4, if_neg h4]
      exact hcreated
  | some b =>
    simp only [h1]
    by_cases h4 : b.length < cap
    · rw [if_pos h4, if_pos h4, alLookup_alSet_self _ _ _ _ h1]
    · rw [if_neg h4, if_neg h4]
      exact h1

theorem buildBuckets_lookup (cap : Nat) (c : ContentCategory)
    (items : List ContentItem) :
    alLookup (buildBuckets cap items) c =
      if (items.filter fun i => i.category = c) = [] then none
      else some ((items.filter fun i => i.category = c).take cap) := by
  induction items using List.reverseRecOn with
  | nil => simp [buildBuckets, alLookup]
  | append_singleton items x ih =>
    rw [buildBuckets, List.foldl_append]
    simp only [List.foldl_cons, List.foldl_nil]
    rw [show List.foldl (bucketStep cap) [] items = buildBuckets cap items
      from rfl]
    by_cases hc : c = x.category
    · subst hc
      rw [alLookup_bucketStep_self, ih]
      have hfx : (items ++ [x]).filter (fun i => i.category = x.category)
          = items.filter (fun i => i.category = x.category) ++ [x] := by
        rw [List.filter_append]
        simp
      rw [hfx]
      by_cases hf : (items.filter fun i => i.category = x.category) = []
      · rw [if_pos hf, hf]
        cases cap with
        | zero => simp
        | succ n => simp
      · rw [if_neg hf]
        have hne2 :
            ¬ ((items.filter fun i => i.category = x.category) ++ [x] = []) := by
          simp
        rw [if_neg hne2]
        set f := items.filter fun i => i.category = x.category with hfdef
        dsimp only
        by_cases h4 : f.length < cap
        · have hlt : (f.take cap).length < cap := by
            rw [List.length_take]
            omega
          rw [if_pos hlt, List.take_of_length_le (le_of_lt h4),
            List.take_of_length_le (by simp; omega)]
        · have hge : ¬ (f.take cap).length < cap := by
            rw [List.length_take]
            omega
          rw [if_neg hge, List.take_append_of_le_length (by omega)]
    · rw [alLookup_bucketStep_ne _ _ _ hc, ih]
      have hfx : (items ++ [x]).filter (fun i => i.category = c)
          = items.filter (fun i => i.category = c) := by
        rw [List.filter_append]
        simp [Ne.symm hc]
      rw [hfx]

/-! ## Lemmas about the sections built by DailyReport.add_item -/

theorem addToSections_categories (secs : List CategorySection) (x : ContentItem) :
    (addToSections secs x).map CategorySection.category =
      if x.category ∈ secs.map CategorySection.category
      then secs.map CategorySection.category
      else secs.map CategorySection.category ++ [x.category] := by
  induction secs with
  | nil => simp [addToSections]
  | cons t rest ih =>
    by_cases ht : t.category = x.category
    · simp only [addToSections, if_pos ht, List.map_cons]
      rw [if_pos (by simp [ht])]
    · simp only [addToSections, if_neg ht, List.map_cons, ih]
      by_cases hm : x.category ∈ rest.map CategorySection.category
      · rw [if_pos hm, if_pos (by simp [hm])]
      · rw [if_neg hm, if_neg (by simp [hm, Ne.symm ht])]
        simp

theorem addToSections_categories_nodup (secs : List CategorySection)
    (x : ContentItem) (hnd : (secs.map CategorySection.category).Nodup) :
    ((addToSections secs x).map CategorySection.category).Nodup := by
  rw [addToSections_categories]
  by_cases hm : x.category ∈ secs.map CategorySection.category
  · rw [if_pos hm]
    exact hnd
  · rw [if_neg hm]
    simp [List.nodup_append, hnd, hm]

theorem mem_addToSections_spec (secs : List CategorySection) (x : ContentItem)
    (hnd : (secs.map CategorySection.category).Nodup) :
    ∀ s0 ∈ addToSections secs x,
      (s0.category = x.category ∧
        ((∃ s1 ∈ secs, s1.category = x.category ∧ s0.items = s1.items ++ [x]) ∨
          ((∀ s1 ∈ secs, s1.category ≠ x.category) ∧
            s0 = { category := x.category, items := [x], ai_summary := none }))) ∨
      (s0.category ≠ x.category ∧ s0 ∈ secs) := by
  induction secs with
  | nil =>
    intro s0 hs0
    simp only [addToSections, List.mem_singleton] at hs0
    subst hs0
    exact Or.inl ⟨rfl, Or.inr ⟨by simp, rfl⟩⟩
  | cons t rest ih =>
    intro s0 hs0
    by_cases ht : t.category = x.category
    · simp only [addToSections, if_pos ht] at hs0
      rcases List.mem_cons.mp hs0 with h1 | h1
      · subst h1
        exact Or.inl ⟨ht, Or.inl ⟨t, List.mem_cons_self t rest, ht, rfl⟩⟩
      · have hnotin : t.category ∉ rest.map CategorySection.category :=
          (List.nodup_cons.mp (by simpa using hnd)).1
        have hs0cat : s0.category ∈ rest.map CategorySection.category :=
          List.mem_map_of_mem _ h1
        refine Or.inr ⟨?_, List.mem_cons_of_mem _ h1⟩
        intro hEq
        rw [hEq, ← ht] at hs0cat
        exact hnotin hs0cat
    · simp only [addToSections, if_neg ht] at hs0
      rcases List.mem_cons.mp hs0 with h1 | h1
      · subst h1
        exact Or.inr ⟨ht, List.mem_cons_self _ _⟩
      · have hnd2 : (rest.map CategorySection.category).Nodup :=
          (List.nodup_cons.mp (by simpa using hnd)).2
        rcases ih hnd2 s0 h1 with ⟨hcat, hsub⟩ | ⟨hne, hmem⟩
        · refine Or.inl ⟨hcat, ?_⟩
          rcases hsub with ⟨s1, hs1, hc1, hi⟩ | ⟨hall, hfresh⟩
          · exact Or.inl ⟨s1, List.mem_cons_of_mem _ hs1, hc1, hi⟩
          · refine Or.inr ⟨?_, hfresh⟩
            intro s1 hs1
            rcases List.mem_cons.mp hs1 with h2 | h2
            · rw [h2]
              exact ht
            · exact hall s1 h2
        · exact Or.inr ⟨hne, List.mem_cons_of_mem _ hmem⟩

theorem sections_foldl_spec (xs : List ContentItem) :
    ∀ (secs : List CategorySection),
      (secs.map CategorySection.category).Nodup →
      ∀ s ∈ xs.foldl addToSections secs,
        ((∃ s0 ∈ secs, s0.category = s.category ∧
            s.items = s0.items ++ xs.filter fun i => i.category = s.category) ∨
          ((∀ s0 ∈ secs, s0.category ≠ s.category) ∧
            s.items = xs.filter fun i => i.category = s.category)) := by
  induction xs with
  | nil =>
    intro secs hnd s hs
    exact Or.inl ⟨s, hs, rfl, by simp⟩
  | cons x xs ih =>
    intro secs hnd s hs
    rw [List.foldl_cons] at hs
    have hnd2 := addToSections_categories_nodup secs x hnd
    rcases ih (addToSections secs x) hnd2 s hs with ⟨s0, hs0, hc0, hi0⟩ | ⟨hall, hi0⟩
    · rcases mem_addToSections_spec secs x hnd s0 hs0 with ⟨hcx, hsub⟩ | ⟨hne, hmem⟩
      · have hxs : x.category = s.category := by rw [← hc0, hcx]
        have hfilter : (x :: xs).filter (fun i => i.category = s.category)
            = x :: xs.filter fun i => i.category = s.category := by
          simp [List.filter_cons, hxs]
        rcases hsub with ⟨s1, hs1, hc1, hi1⟩ | ⟨hall1, hfresh⟩
        · refine Or.inl ⟨s1, hs1, by rw [hc1, hxs], ?_⟩
          rw [hi0, hi1, hfilter]
          simp
        · refine Or.inr ⟨?_, ?_⟩
          · intro s1 hs1
            rw [← hxs]
            exact hall1 s1 hs1
          · rw [hi0, hfresh, hfilter]
            simp
      · have hxs : x.category ≠ s.category := by
          rw [← hc0]
          exact fun h => hne h.symm
        have hfilter : (x :: xs).filter (fun i => i.category = s.category)
            = xs.filter fun i => i.category = s.category := by
          simp [List.filter_cons, hxs]
        exact Or.inl ⟨s0, hmem, hc0, by rw [hi0, hfilter]⟩
    · have hxcat : x.category ≠ s.category := by
        have hx : x.category ∈ (addToSections secs x).map CategorySection.category := by
          rw [addToSections_categories]
          by_cases hm : x.category ∈ secs.map CategorySection.category
          · rw [if_pos hm]
            exact hm
          · rw [if_neg hm]
            simp
        rcases List.mem_map.mp hx with ⟨s0, hs0, hcat⟩
        rw [← hcat]
        exact hall s0 hs0
      refine Or.inr ⟨?_, ?_⟩
      · intro s0 hs0
        have hmem : s0.category ∈ (addToSections secs x).map CategorySection.category := by
          rw [addToSections_categories]
          have hin : s0.category ∈ secs.map CategorySection.category :=
            List.mem_map_of_mem _ hs0
          by_cases hm : x.category ∈ secs.map CategorySection.category
          · rw [if_pos hm]
            exact hin
          · rw [if_neg hm]
            exact List.mem_append_left _ hin
        rcases List.mem_map.mp hmem with ⟨s1, hs1, hcat⟩
        rw [← hcat]
        exact hall s1 hs1
      · rw [hi0]
        simp [List.filter_cons, hxcat]

theorem foldl_add_item_sections (xs : List ContentItem) :
    ∀ rep : DailyReport,
      (xs.foldl DailyReport.add_item rep).sections
        = xs.foldl addToSections rep.sections := by
  induction xs with
  | nil => intro rep; rfl
  | cons x xs ih =>
    intro rep
    rw [List.foldl_cons, List.foldl_cons, ih]
    rfl

theorem sections_length_le_cap (cap : Nat) (sorted : List ContentItem)
    (hnd : sorted.Nodup) :
    ∀ s ∈ (sorted.filter fun item =>
        ((alLookup (buildBuckets cap sorted) item.category).getD
          []).contains item).foldl addToSections ([] : List CategorySection),
      s.items.length ≤ cap := by
  intro s hs
  rcases sections_foldl_spec _ [] (by simp) s hs with ⟨s0, hs0, _, _⟩ | ⟨_, hitems⟩
  · simp at hs0
  · rw [hitems]
    set kept := sorted.filter fun item =>
      ((alLookup (buildBuckets cap sorted) item.category).getD
        []).contains item with hkeptdef
    have hbucket := buildBuckets_lookup cap s.category sorted
    set f := sorted.filter fun i => i.category = s.category with hfdef
    have hsub : ∀ y ∈ kept.filter (fun i => i.category = s.category),
        y ∈ f.take cap := by
      intro y hy
      have hy1 : y ∈ kept := List.mem_of_mem_filter hy
      have hyc : y.category = s.category := by
        simpa using List.of_mem_filter hy
      have hy2 :
          (((alLookup (buildBuckets cap sorted) y.category).getD
            []).contains y) = true := by
        simpa using List.of_mem_filter hy1
      rw [hyc, hbucket] at hy2
      by_cases hf : f = []
      · rw [if_pos hf] at hy2
        simp at hy2
      · rw [if_neg hf] at hy2
        simpa using hy2
    have hknd : (kept.filter fun i => i.category = s.category).Nodup :=
      (List.filter_sublist _).nodup ((List.filter_sublist _).nodup hnd)
    have hcard :
        (kept.filter fun i => i.category = s.category).length
          = (kept.filter fun i => i.category = s.category).toFinset.card :=
      (List.toFinset_card_of_nodup hknd).symm
    have hsubset :
        (kept.filter fun i => i.category = s.category).toFinset
          ⊆ (f.take cap).toFinset := by
      intro y hy
      rw [List.mem_toFinset] at hy ⊢
      exact hsub y hy
    calc (kept.filter fun i => i.category = s.category).length
        = (kept.filter fun i => i.category = s.category).toFinset.card := hcard
      _ ≤ (f.take cap).toFinset.card := Finset.card_le_card hsubset
      _ ≤ (f.take cap).length := List.toFinset_card_le _
      _ ≤ cap := List.length_take_le _ _

/-- Claim C5 (amended): provided no two collected items are equal (ContentItem
is a dataclass, so the membership test of aggregate_all compares by value),
every category section of the produced DailyReport holds at most
max_items_per_category items. -/
theorem aggregate_cap (now : ℚ) (br : Option (List BiliReport))
    (zr : Option (List ZhihuReport)) (since : Option ℚ) (min_importance : ℚ)
    (cap : Nat)
    (hnd : ((match br with
             | some rs => collect_bilibili_content now rs since
             | none => []) ++
            (match zr with
             | some rs => collect_zhihu_content now rs since false
             | none => [])).Nodup) :
    ∀ s ∈ (aggregate_all now br zr since min_importance cap).sections,
      s.items.length ≤ cap := by
  intro s hs
  unfold aggregate_all at hs
  rw [foldl_add_item_sections] at hs
  refine sections_length_le_cap cap _ ?_ s hs
  exact ((List.perm_insertionSort _ _).nodup_iff).mpr ((hnd.filter _))

/-- The duplicated video of the C5 counterexample. -/
def c5_report : BiliReport :=
  { up_name := "u", mid := "1",
    new_videos := [{ title := "t", description := "d", bvid := "bv" },
                   { title := "t", description := "d", bvid := "bv" }] }

/-- The item the collector produces (twice) from c5_report. -/
def c5_item : ContentItem :=
  { title := "t"
    url := "https://www.bilibili.com/video/" ++ "bv"
    source := ContentSource.BILIBILI
    published := none
    author := some "u"
    summary := if ("d" : String) = "" then none else some (pySlice "d" 200)
    category := categorize_content "t" (some "d")
    importance_score :=
      calculate_importance 0 none (!(("d" : String) == "")) ContentSource.BILIBILI
    tags := []
    source_data :=
      [("bvid", SDVal.s "bv"), ("mid", SDVal.s "1"), ("up_name", SDVal.s "u"),
       ("view_count", SDVal.oi none), ("like_count", SDVal.oi none)] }

/-- Claim C5, as stated, is false: with two equal collected items and
max_items_per_category = 1, the dataclass value-equality membership test of
aggregate_all admits both duplicates and the section holds 2 items. -/
theorem c5_counterexample :
    ¬ (∀ s ∈ (aggregate_all 0 (some [c5_report]) none none 0 1).sections,
        s.items.length ≤ 1) := by
  intro h
  have hcol : collect_bilibili_content 0 [c5_report] none
      = [c5_item, c5_item] := rfl
  have himp : (0:ℚ) ≤ c5_item.importance_score := by
    have hb := importance_score_bounds 0 none (!(("d" : String) == ""))
      ContentSource.BILIBILI
    exact hb.1
  have hfilt : ([c5_item, c5_item].filter fun item =>
      (0:ℚ) ≤ item.importance_score) = [c5_item, c5_item] := by
    simp [List.filter_cons, himp]
  have hsorted : List.insertionSort
      (fun a b : ContentItem => b.importance_score ≤ a.importance_score)
      [c5_item, c5_item] = [c5_item, c5_item] := by
    simp [List.insertionSort, List.orderedInsert]
  have hbb : buildBuckets 1 [c5_item, c5_item]
      = [(c5_item.category, [c5_item])] := rfl
  have hmem : c5_item ∈ ((alLookup (buildBuckets 1 [c5_item, c5_item])
      c5_item.category).getD []) := by
    rw [hbb, alLookup_cons_self]
    simp
  have hkept : ([c5_item, c5_item].filter fun item =>
      ((alLookup (buildBuckets 1 [c5_item, c5_item]) item.category).getD
        []).contains item) = [c5_item, c5_item] := by
    simp [List.filter_cons, hmem]
  have hsec : (aggregate_all 0 (some [c5_report]) none none 0 1).sections
      = [{ category := c5_item.category, items := [c5_item, c5_item] }] := by
    simp only [aggregate_all, hcol, List.append_nil, hfilt, hsorted, hkept]
    rw [foldl_add_item_sections]
    rfl
  have h2 := h { category := c5_item.category, items := [c5_item, c5_item] }
    (by rw [hsec]; exact List.mem_singleton.mpr rfl)
  simp at h2

/-- Two distinct videos for the C5 witness. -/
def c5w_report : BiliReport :=
  { up_name := "u", mid := "1",
    new_videos := [{ title := "x", description := "d", bvid := "b1" },
                   { title := "y", description := "d", bvid := "b2" }] }

/-- Witness for the amended claim C5 on a concrete aggregation run with
pairwise distinct items. -/
theorem aggregate_cap_witness :
    ((aggregate_all 0 (some [c5w_report]) none none 0 1).sections.all
      fun s => s.items.length ≤ 1) = true :=
  List.all_eq_true.mpr fun s hs =>
    decide_eq_true
      (aggregate_cap 0 (some [c5w_report]) none none 0 1 (by decide) s hs)

/-! ## services/content_search.py -/

/-- services/content_search.py SearchQuery (the Literal string fields are
kept as strings). -/
structure SearchQuery where
  keywords : List String := []
  search_in : List String := ["title", "summary"]
  case_sensitive : Bool := false
  categories : List ContentCategory := []
  sources : List ContentSource := []
  min_importance : Option ℚ := none
  max_importance : Option ℚ := none
  start_date : Option ℚ := none
  end_date : Option ℚ := none
  sort_by : String := "relevance"
  sort_order : String := "desc"
  limit : Nat := 20
  offset : Nat := 0
deriving DecidableEq

/-- services/content_search.py SearchResult. -/
structure SearchResult where
  item : ContentItem
  relevance_score : ℚ := 0
  matched_fields : List String := []
deriving DecidableEq

/-- The per-field weight dict of _calculate_relevance, with default 1.0. -/
def fieldWeight (name : String) : ℚ :=
  if name = "title" then 3
  else if name = "summary" then 1.5
  else if name = "author" then 1
  else 1

/-- ContentSearchEngine._calculate_relevance. -/
def calculate_relevance (item : ContentItem) (keywords : List String)
    (search_in : List String) (case_sensitive : Bool) : ℚ × List String :=
  if keywords = [] then (1, [])
  else
    let search_texts : List (String × String) :=
      (if "title" ∈ search_in ∧ item.title ≠ "" then
        [("title", if case_sensitive then item.title else pyLower item.title)]
       else []) ++
      (match item.summary with
       | some s =>
         if "summary" ∈ search_in ∧ s ≠ "" then
           [("summary", if case_sensitive then s else pyLower s)]
         else []
       | none => []) ++
      (match item.author with
       | some a =>
         if "author" ∈ search_in ∧ a ≠ "" then
           [("author", if case_sensitive then a else pyLower a)]
         else []
       | none => [])
    let search_keywords :=
      if case_sensitive then keywords else keywords.map pyLower
    let r := search_texts.foldl (fun acc ft =>
      let field_score := search_keywords.foldl (fun fs kw =>
        let count := countOccs kw ft.2
        if 0 < count then
          fs + fieldWeight ft.1 * (1 + 0.5 * ((min (count - 1) 3 : Nat) : ℚ))
        else fs) 0
      let field_matched := search_keywords.any fun kw => 0 < countOccs kw ft.2
      if field_matched then (acc.1 + field_score, acc.2 ++ [ft.1]) else acc)
      ((0 : ℚ), ([] : List String))
    let max_possible := (keywords.length : ℚ) * 3
    let normalized :=
      if 0 < max_possible then min 1 (r.1 / max_possible) else 0
    (normalized, r.2)

/-- ContentSearchEngine._matches_filters. -/
def matches_filters (item : ContentItem) (q : SearchQuery) : Bool :=
  if !q.categories.isEmpty && !q.categories.contains item.category then false
  else if !q.sources.isEmpty && !q.sources.contains item.source then false
  else if (match q.min_importance with
           | some lo => decide (item.importance_score < lo)
           | none => false) then false
  else if (match q.max_importance with
           | some hi => decide (hi < item.importance_score)
           | none => false) then false
  else
    match item.published with
    | some p =>
      if (match q.start_date with
          | some sd => decide (p < sd)
          | none => false) then false
      else if (match q.end_date with
               | some ed => decide (ed < p)
               | none => false) then false
      else true
    | none => true

/-- Python datetime.min as an epoch timestamp (0001-01-01T00:00:00). -/
def datetimeMin : ℚ := -62135596800

/-- Python list.sort(key=k, reverse=d): the stable sort by the key, computed
by insertion sort with the matching relation. -/
def pySortBy (key : SearchResult → ℚ) (descending : Bool)
    (l : List SearchResult) : List SearchResult :=
  if descending then List.insertionSort (fun a b => key b ≤ key a) l
  else List.insertionSort (fun a b => key a ≤ key b) l

/-- ContentSearchEngine.search: filter, score, drop zero-relevance results in
keyword mode, sort, paginate. The engine state (content_index) is the index
parameter. -/
def search (index : List ContentItem) (q : SearchQuery) : List SearchResult :=
  let results := index.filterMap fun item =>
    if matches_filters item q then
      let rm := calculate_relevance item q.keywords q.search_in q.case_sensitive
      if q.keywords ≠ [] ∧ rm.1 = 0 then none
      else some { item := item, relevance_score := rm.1, matched_fields := rm.2 }
    else none
  let results :=
    if q.sort_by = "relevance" then
      pySortBy (fun r => r.relevance_score) (q.sort_order == "desc") results
    else if q.sort_by = "importance" then
      pySortBy (fun r => r.item.importance_score) (q.sort_order == "desc") results
    else if q.sort_by = "date" then
      pySortBy (fun r => r.item.published.getD datetimeMin)
        (q.sort_order == "desc") results
    else results
  (results.drop q.offset).take q.limit

/-- ContentSearchEngine.remove_old_content: keep only the items whose
published time exists and is at or after now minus the given days. -/
def remove_old_content (now : ℚ) (days : Nat) (index : List ContentItem) :
    List ContentItem :=
  let cutoff := now - 86400 * (days : ℚ)
  index.filter fun item =>
    match item.published with
    | some p => decide (cutoff ≤ p)
    | none => false

/-! ## Claims C7 and C10: search filters and index pruning -/

theorem mem_pySortBy (key : SearchResult → ℚ) (d : Bool)
    (l : List SearchResult) (r : SearchResult) (h : r ∈ pySortBy key d l) :
    r ∈ l := by
  unfold pySortBy at h
  split at h
  · exact ((List.perm_insertionSort _ _).mem_iff).mp h
  · exact ((List.perm_insertionSort _ _).mem_iff).mp h

theorem matches_filters_spec (item : ContentItem) (q : SearchQuery)
    (h : matches_filters item q = true) :
    (q.categories ≠ [] → item.category ∈ q.categories) ∧
    (q.sources ≠ [] → item.source ∈ q.sources) ∧
    (∀ lo, q.min_importance = some lo → lo ≤ item.importance_score) ∧
    (∀ hi, q.max_importance = some hi → item.importance_score ≤ hi) ∧
    (∀ p, item.published = some p →
      (∀ sd, q.start_date = some sd → sd ≤ p) ∧
      (∀ ed, q.end_date = some ed → p ≤ ed)) := by
  unfold matches_filters at h
  split_ifs at h with h1 h2 h3 h4
  refine ⟨?_, ?_, ?_, ?_, ?_⟩
  · intro hne
    rcases Bool.and_eq_false_iff.mp (Bool.not_eq_true _ ▸ h1) with hc | hc
    · exact absurd (by simpa using hc) (by simpa using hne)
    · simpa using hc
  · intro hne
    rcases Bool.and_eq_false_iff.mp (Bool.not_eq_true _ ▸ h2) with hc | hc
    · exact absurd (by simpa using hc) (by simpa using hne)
    · simpa using hc
  · intro lo hlo
    rw [hlo] at h3
    simp only [decide_eq_true_eq] at h3
    exact le_of_not_lt h3
  · intro hi hhi
    rw [hhi] at h4
    simp only [decide_eq_true_eq] at h4
    exact le_of_not_lt h4
  · intro p hp
    rw [hp] at h
    dsimp only at h
    split_ifs at h with h5 h6
    constructor
    · intro sd hsd
      rw [hsd] at h5
      simp only [decide_eq_true_eq] at h5
      exact le_of_not_lt h5
    · intro ed hed
      rw [hed] at h6
      simp only [decide_eq_true_eq] at h6
      exact le_of_not_lt h6

/-- Claim C7: every result returned by search satisfies each active filter
predicate (categories, sources, importance bounds, date range on items that
have a published time), and the date-range filter never excludes an item
with no published time (dropping the date bounds does not change its filter
outcome). -/
theorem search_filter_correctness :
    (∀ (index : List ContentItem) (q : SearchQuery) (r : SearchResult),
        r ∈ search index q →
        (q.categories ≠ [] → r.item.category ∈ q.categories) ∧
        (q.sources ≠ [] → r.item.source ∈ q.sources) ∧
        (∀ lo, q.min_importance = some lo → lo ≤ r.item.importance_score) ∧
        (∀ hi, q.max_importance = some hi → r.item.importance_score ≤ hi) ∧
        (∀ p, r.item.published = some p →
          (∀ sd, q.start_date = some sd → sd ≤ p) ∧
          (∀ ed, q.end_date = some ed → p ≤ ed))) ∧
    (∀ (item : ContentItem) (q : SearchQuery), item.published = none →
        matches_filters item q
          = matches_filters item { q with start_date := none, end_date := none }) := by
  constructor
  · intro index q r hr
    simp only [search] at hr
    have h1 := List.mem_of_mem_drop (List.mem_of_mem_take hr)
    have h2 : r ∈ index.filterMap fun item =>
        if matches_filters item q then
          let rm := calculate_relevance item q.keywords q.search_in
            q.case_sensitive
          if q.keywords ≠ [] ∧ rm.1 = 0 then none
          else some { item := item, relevance_score := rm.1,
                      matched_fields := rm.2 }
        else none := by
      split at h1
      · exact mem_pySortBy _ _ _ _ h1
      · split at h1
        · exact mem_pySortBy _ _ _ _ h1
        · split at h1
          · exact mem_pySortBy _ _ _ _ h1
          · exact h1
    rcases List.mem_filterMap.mp h2 with ⟨item, hmem, heq⟩
    split at heq
    · dsimp only at heq
      split at heq
      · exact absurd heq (by simp)
      · cases heq
        exact matches_filters_spec item q (by assumption)
    · exact absurd heq (by simp)
  · intro item q hpub
    unfold matches_filters
    rw [hpub]

/-- The concrete corpus and query of the C7 witness. -/
def c7_item : ContentItem :=
  { title := "t", url := "u", source := ContentSource.OTHER }

/-- A filter-only query on the OTHER category. -/
def c7_query : SearchQuery := { categories := [ContentCategory.OTHER] }

/-- The single result search returns for c7_item under c7_query. -/
def c7_result : SearchResult :=
  { item := c7_item, relevance_score := 1, matched_fields := [] }

/-- Witness for claim C7 at a concrete search run. -/
theorem search_filter_correctness_witness :
    c7_result.item.category ∈ c7_query.categories :=
  (search_filter_correctness.1 [c7_item] c7_query c7_result
    (List.Mem.head _)).1 (by decide)

/-- Claim C10: after remove_old_content every remaining indexed item has a
published time at or after the cutoff, and in particular every item without
a published time is removed. -/
theorem remove_old_content_spec :
    (∀ (now : ℚ) (days : Nat) (index : List ContentItem)
        (item : ContentItem), item ∈ remove_old_content now days index →
        ∃ p, item.published = some p ∧ now - 86400 * (days : ℚ) ≤ p) ∧
    (∀ (now : ℚ) (days : Nat) (index : List ContentItem)
        (item : ContentItem), item.published = none →
        item ∉ remove_old_content now days index) := by
  constructor
  · intro now days index item h
    have hp := List.of_mem_filter h
    cases hpub : item.published with
    | none => rw [hpub] at hp; simp at hp
    | some p =>
      rw [hpub] at hp
      simp only [decide_eq_true_eq] at hp
      exact ⟨p, rfl, hp⟩
  · intro now days index item hpub h
    have hp := List.of_mem_filter h
    rw [hpub] at hp
    simp at hp

/-- A dated item (published at the epoch) for the C10 witness. -/
def c10_dated : ContentItem :=
  { title := "a", url := "u", source := ContentSource.OTHER, published := some 0 }

/-- An undated item for the C10 witness. -/
def c10_undated : ContentItem :=
  { title := "b", url := "u", source := ContentSource.OTHER }

/-- Witness for claim C10 at a concrete pruning run: the undated item is
gone and the dated one satisfies the cutoff. -/
theorem remove_old_content_spec_witness :
    (c10_undated ∉ remove_old_content 0 1 [c10_dated, c10_undated]) ∧
    (0 : ℚ) - 86400 * ((1 : Nat) : ℚ) ≤ 0 := by
  constructor
  · exact remove_old_content_spec.2 0 1 [c10_dated, c10_undated] c10_undated rfl
  · obtain ⟨p, hp, hle⟩ := remove_old_content_spec.1 0 1
      [c10_dated, c10_undated] c10_dated (by
        unfold remove_old_content
        simp only [List.filter_cons]
        norm_num [c10_dated, c10_undated])
    have h0 : (some (0:ℚ)) = some p := hp
    injection h0 with h0
    rw [← h0] at hle
    exact hle

/-! ## services/archive_service.py -/

/-- services/archive_service.py ArchiveMetadata. The file path is kept as the
file name string; the byte size of the JSON dump is not modelled. -/
structure ArchiveMetadata where
  archive_id : String
  report_date : ℚ
  archived_at : ℚ
  file_path : String
  file_size : Nat := 0
  total_items : Nat
  bilibili_items : Nat
  zhihu_items : Nat
deriving DecidableEq

/-- services/archive_service.py ArchiveManager: the payload files on disk
(file name to stored report) together with the archive index
(ArchiveIndex.archives). Loading and saving the index file are the identity
on this in-memory model. -/
structure ArchiveManager where
  files : List (String × DailyReport) := []
  index : List ArchiveMetadata := []
deriving DecidableEq

/-- ArchiveManager.get_archive: first index entry with the given id. -/
def get_archive (m : ArchiveManager) (archive_id : String) :
    Option ArchiveMetadata :=
  m.index.find? fun a => a.archive_id == archive_id

/-- ArchiveManager.archive_report: derive the id from the report date, return
the existing metadata when the id is already archived, otherwise write the
payload file, append the metadata to the index and return it. The Python
None branch covers only I/O exceptions, which do not occur in this total
model. -/
def archive_report (m : ArchiveManager) (report : DailyReport) (now : ℚ) :
    Option ArchiveMetadata × ArchiveManager :=
  let archive_id := strftimeYMD report.report_date
  match get_archive m archive_id with
  | some existing => (some existing, m)
  | none =>
    let filename := "report_" ++ archive_id ++ ".json"
    let metadata : ArchiveMetadata :=
      { archive_id := archive_id
        report_date := report.report_date
        archived_at := now
        file_path := filename
        file_size := 0
        total_items := report.total_items
        bilibili_items := report.bilibili_items
        zhihu_items := report.zhihu_items }
    (some metadata,
     { files := m.files ++ [(filename, report)],
       index := m.index ++ [metadata] })

/-! ## Claim C9: archive idempotence -/

theorem get_archive_append_fresh (m : ArchiveManager)
    (files2 : List (String × DailyReport)) (md : ArchiveMetadata)
    (id : String) (hnone : get_archive m id = none)
    (hmd : md.archive_id = id) :
    get_archive { files := files2, index := m.index ++ [md] } id = some md := by
  unfold get_archive at hnone ⊢
  rw [List.find?_append, hnone]
  simp [List.find?_cons, hmd]

/-- Claim C9: the archive id is a function of the calendar day of the report
date alone, and archiving a second report with the same id is a no-op: it
returns exactly the metadata of the first archival and leaves the whole
state (stored payloads and index) unchanged. -/
theorem archive_idempotent :
    (∀ t1 t2 : ℚ, dayOf t1 = dayOf t2 → strftimeYMD t1 = strftimeYMD t2) ∧
    (∀ (m : ArchiveManager) (r r2 : DailyReport) (now now2 : ℚ),
        strftimeYMD r2.report_date = strftimeYMD r.report_date →
        archive_report (archive_report m r now).2 r2 now2
          = ((archive_report m r now).1, (archive_report m r now).2)) := by
  constructor
  · intro t1 t2 h
    unfold strftimeYMD
    rw [h]
  · intro m r r2 now now2 hid
    cases hga : get_archive m (strftimeYMD r.report_date) with
    | some existing =>
      simp only [archive_report, hid, hga]
    | none =>
      simp only [archive_report, hid, hga]
      rw [get_archive_append_fresh m _ _ _ hga rfl]

/-- A report dated at the epoch. -/
def c9_r : DailyReport := { report_date := 0, title := "r" }

/-- A second report one hour later on the same calendar day. -/
def c9_r2 : DailyReport := { report_date := 3600, title := "r2" }

/-- Witness for claim C9: archiving two reports of the same day, one hour
apart, into an empty archive; the second call returns the metadata of the
first and leaves the state unchanged. -/
theorem archive_idempotent_witness :
    archive_report (archive_report ⟨[], []⟩ c9_r 0).2 c9_r2 1
      = ((archive_report ⟨[], []⟩ c9_r 0).1,
         (archive_report ⟨[], []⟩ c9_r 0).2) :=
  archive_idempotent.2 ⟨[], []⟩ c9_r c9_r2 0 1
    (archive_idempotent.1 3600 0 (by norm_num [dayOf]))
